import Mathlib

/-!
Verification development for the SBW savings-bond converter
(`sbw_convert.py`).  The Python program is shallowly embedded: a file is a
`List Nat` of byte values, reads consume from the front (or are indexed by
an explicit cursor for the sniffer, which seeks), Python exceptions are
modelled with `Except`, and the status-code/`None` convention of the
source is kept as a `Nat × Option _` result.
-/

namespace SBW

/-! ## Byte-stream primitives -/

/-- Model of `fp.read(n)` on a forward-only stream: returns the bytes read
(at most `n`; fewer at end of file) and the remaining stream. -/
def pyRead (bs : List Nat) (n : Nat) : List Nat × List Nat :=
  (bs.take n, bs.drop n)

/-- Model of `fp.readline()` in binary mode: bytes up to and including the
first `0x0A`, or everything that is left when no newline remains. -/
def pyReadline : List Nat → List Nat × List Nat
  | [] => ([], [])
  | b :: rest =>
    if b = 10 then ([10], rest)
    else
      let p := pyReadline rest
      (b :: p.1, p.2)

/-! ## Strict UTF-8 decoding (`bytes.decode('utf-8')`) -/

/-- Checks a UTF-8 continuation byte. -/
def utf8Cont (b : Nat) : Bool := 0x80 ≤ b ∧ b ≤ 0xBF

/-- Range check for the second byte of a three-byte sequence, which depends
on the lead byte (excluding overlong forms and surrogates, as CPython's
strict decoder does). -/
def utf8Cont3 (b0 b1 : Nat) : Bool :=
  if b0 = 0xE0 then 0xA0 ≤ b1 ∧ b1 ≤ 0xBF
  else if b0 = 0xED then 0x80 ≤ b1 ∧ b1 ≤ 0x9F
  else utf8Cont b1

/-- Range check for the second byte of a four-byte sequence (excluding
overlong forms and code points beyond U+10FFFF). -/
def utf8Cont4 (b0 b1 : Nat) : Bool :=
  if b0 = 0xF0 then 0x90 ≤ b1 ∧ b1 ≤ 0xBF
  else if b0 = 0xF4 then 0x80 ≤ b1 ∧ b1 ≤ 0x8F
  else utf8Cont b1

/-- Strict UTF-8 decoder on byte lists, `none` on any malformed sequence
(CPython raises `UnicodeDecodeError` there). -/
def utf8DecodeAux : List Nat → Option (List Char)
  | [] => some []
  | b0 :: rest =>
    if b0 < 0x80 then
      (utf8DecodeAux rest).map (fun cs => Char.ofNat b0 :: cs)
    else if 0xC2 ≤ b0 ∧ b0 ≤ 0xDF then
      match rest with
      | b1 :: rest2 =>
        if utf8Cont b1 then
          (utf8DecodeAux rest2).map
            (fun cs => Char.ofNat ((b0 - 0xC0) * 0x40 + (b1 - 0x80)) :: cs)
        else none
      | [] => none
    else if 0xE0 ≤ b0 ∧ b0 ≤ 0xEF then
      match rest with
      | b1 :: b2 :: rest3 =>
        if utf8Cont3 b0 b1 ∧ utf8Cont b2 then
          (utf8DecodeAux rest3).map
            (fun cs =>
              Char.ofNat ((b0 - 0xE0) * 0x1000 + (b1 - 0x80) * 0x40 + (b2 - 0x80)) :: cs)
        else none
      | _ => none
    else if 0xF0 ≤ b0 ∧ b0 ≤ 0xF4 then
      match rest with
      | b1 :: b2 :: b3 :: rest4 =>
        if utf8Cont4 b0 b1 ∧ utf8Cont b2 ∧ utf8Cont b3 then
          (utf8DecodeAux rest4).map
            (fun cs =>
              Char.ofNat
                ((b0 - 0xF0) * 0x40000 + (b1 - 0x80) * 0x1000 +
                  (b2 - 0x80) * 0x40 + (b3 - 0x80)) :: cs)
        else none
      | _ => none
    else none

/-- Model of `bytes.decode('utf-8')`. -/
def utf8Decode (bs : List Nat) : Option String :=
  (utf8DecodeAux bs).map String.mk

/-! ## Python string helpers -/

/-- The ASCII whitespace characters stripped by `str.strip()` (CPython also
strips non-ASCII Unicode whitespace; no input of this development contains
any, so only the ASCII set is modelled). -/
def pySpace (c : Char) : Bool :=
  c = ' ' ∨ c = '\t' ∨ c = '\n' ∨ c = '\r' ∨ c = Char.ofNat 11 ∨ c = Char.ofNat 12

/-- Drops characters satisfying `p` from both ends of a list. -/
def stripEnds (p : Char → Bool) (cs : List Char) : List Char :=
  ((cs.dropWhile p).reverse.dropWhile p).reverse

/-- Model of `str.strip()`. -/
def pyStripStr (s : String) : String := String.mk (stripEnds pySpace s.data)

/-- Model of `str.strip('"')`: removes every leading and trailing double
quote. -/
def pyStripQuotes (s : String) : String := String.mk (stripEnds (fun c => c = '"') s.data)

/-- Whitespace bytes removed by `bytes.strip()` (this one is ASCII-only in
CPython). -/
def pySpaceByte (b : Nat) : Bool :=
  b = 32 ∨ b = 9 ∨ b = 10 ∨ b = 13 ∨ b = 11 ∨ b = 12

/-- Model of `bytes.strip()`. -/
def pyStripBytes (bs : List Nat) : List Nat :=
  ((bs.dropWhile pySpaceByte).reverse.dropWhile pySpaceByte).reverse

/-- Splits off everything before the first comma; `none` when there is no
comma. -/
def splitFirstComma : List Char → Option (List Char × List Char)
  | [] => none
  | c :: rest =>
    if c = ',' then some ([], rest)
    else (splitFirstComma rest).map (fun p => (c :: p.1, p.2))

/-- Model of `str.split(",", maxsplit)`: at most `maxsplit` splits, the
remainder (commas included) becomes the final field. -/
def splitCommaMax : Nat → List Char → List (List Char)
  | 0, cs => [cs]
  | fuel + 1, cs =>
    match splitFirstComma cs with
    | none => [cs]
    | some p => p.1 :: splitCommaMax fuel p.2

/-- Model of `line.split(",", 4)` as used by the v2 decoder. -/
def pySplitComma4 (s : String) : List String :=
  (splitCommaMax 4 s.data).map String.mk

/-- Uppercases one character the way `str.upper()` does on the characters
this program can meet: the ASCII range, plus the two non-ASCII letters
whose uppercase form lands in the accepted series alphabet
(U+017F LONG S ↦ `S`, U+0131 DOTLESS I ↦ `I`).  Other characters are kept
unchanged; the full Unicode mapping never moves any of them into the
four-element series set, so the filter below is unaffected. -/
def pyUpperChar (c : Char) : Char :=
  if 'a' ≤ c ∧ c ≤ 'z' then Char.ofNat (c.toNat - 32)
  else if c = Char.ofNat 0x17F then 'S'
  else if c = Char.ofNat 0x131 then 'I'
  else c

/-- Model of `str.upper()`. -/
def pyUpper (s : String) : String := String.mk (s.data.map pyUpperChar)

/-! ## Python numeric literals: `int(s)` and `float(s)` -/

/-- ASCII digit test (CPython also accepts non-ASCII decimal digits; none
appear in this development). -/
def isDig (c : Char) : Bool := '0' ≤ c ∧ c ≤ '9'

/-- Continuation of a digit run after a first digit: further digits, with
single underscores allowed strictly between digits.  Returns the digits
collected and the unconsumed remainder. -/
def digitsTail : List Char → List Char × List Char
  | '_' :: c :: rest =>
    if isDig c then
      let p := digitsTail rest
      (c :: p.1, p.2)
    else ([], '_' :: c :: rest)
  | c :: rest =>
    if isDig c then
      let p := digitsTail rest
      (c :: p.1, p.2)
    else ([], c :: rest)
  | [] => ([], [])

/-- Takes a maximal digit run (with medial underscores) from the front;
the first element must be a digit or nothing is consumed. -/
def takeDigits (cs : List Char) : List Char × List Char :=
  match cs with
  | c :: rest =>
    if isDig c then
      let p := digitsTail rest
      (c :: p.1, p.2)
    else ([], cs)
  | [] => ([], cs)

/-- Value of a digit list in base 10. -/
def digitsToNat (ds : List Char) : Nat :=
  ds.foldl (fun a c => a * 10 + (c.toNat - 48)) 0

/-- ASCII lowercasing, used to recognise `inf` / `nan` case-insensitively. -/
def lowerChar (c : Char) : Char :=
  if 'A' ≤ c ∧ c ≤ 'Z' then Char.ofNat (c.toNat + 32) else c

/-- Optional sign; returns whether a minus was seen and the remainder. -/
def takeSign : List Char → Bool × List Char
  | '+' :: rest => (false, rest)
  | '-' :: rest => (true, rest)
  | cs => (false, cs)

/-- Model of `int(s)` in base 10: optional whitespace, optional sign, a
non-empty digit run (medial underscores allowed), nothing else. -/
def pyIntParse (s : String) : Option Int :=
  let cs := stripEnds pySpace s.data
  let sgn := takeSign cs
  let p := takeDigits sgn.2
  if p.1 = [] ∨ p.2 ≠ [] then none
  else some (if sgn.1 then -(digitsToNat p.1 : Int) else (digitsToNat p.1 : Int))

/-- The value of a Python float as far as this program observes it.  The
finite case stores the exact rational value of the accepted literal; the
rounding of CPython's binary64 representation is not modelled — parse
success, sign, and every integral value below `2^53` (all that the
theorems below evaluate) are identical with or without that rounding. -/
inductive PyFloat
  | finite (q : Rat)
  | inf (neg : Bool)
  | nan
  deriving DecidableEq

/-- Model of `float(s)`: optional whitespace and sign, then `inf`,
`infinity` or `nan` case-insensitively, or a decimal literal
`digits [. digits] [e|E [sign] digits]` with at least one mantissa digit
and medial underscores allowed in every digit run. -/
def pyFloatParse (s : String) : Option PyFloat :=
  let cs := stripEnds pySpace s.data
  let sgn := takeSign cs
  let low := sgn.2.map lowerChar
  if low = ['i', 'n', 'f'] ∨ low = ['i', 'n', 'f', 'i', 'n', 'i', 't', 'y'] then
    some (.inf sgn.1)
  else if low = ['n', 'a', 'n'] then some .nan
  else
    let ip := takeDigits sgn.2
    let frac : Option (List Char) × List Char :=
      match ip.2 with
      | '.' :: r =>
        let fp := takeDigits r
        (some fp.1, fp.2)
      | _ => (none, ip.2)
    let hasMantissa : Bool :=
      match frac.1 with
      | some fp => ip.1 ≠ [] ∨ fp ≠ []
      | none => ip.1 ≠ []
    if hasMantissa then
      let fracDigits := (frac.1).getD []
      let expPart : Option Int × List Char :=
        match frac.2 with
        | 'e' :: r =>
          let es := takeSign r
          let ed := takeDigits es.2
          if ed.1 = [] then (none, [' '])
          else (some (if es.1 then -(digitsToNat ed.1 : Int) else (digitsToNat ed.1 : Int)), ed.2)
        | 'E' :: r =>
          let es := takeSign r
          let ed := takeDigits es.2
          if ed.1 = [] then (none, [' '])
          else (some (if es.1 then -(digitsToNat ed.1 : Int) else (digitsToNat ed.1 : Int)), ed.2)
        | _ => (some 0, frac.2)
      match expPart.1 with
      | none => none
      | some e =>
        if expPart.2 ≠ [] then none
        else
          let m : Nat := digitsToNat (ip.1 ++ fracDigits)
          let sm : Int := if sgn.1 then -(m : Int) else (m : Int)
          let q : Rat :=
            match e - (fracDigits.length : Int) with
            | .ofNat k => mkRat (sm * ((10 ^ k : Nat) : Int)) 1
            | .negSucc k => mkRat sm (10 ^ (k + 1))
          some (.finite q)
    else none

/-! ## Rendering of float values (`str(x)` on a float, as `csv.writer` does) -/

/-- Smallest exponent `k` with `den ∣ 10^k`, when one exists below 33.
Every rational produced by `pyFloatParse` or by converting an integer has
such a denominator (`2^a·5^b`). -/
def denExp (den : Nat) : Option Nat :=
  (List.range 33).find? (fun k => 10 ^ k % den = 0)

/-- Python's `str`/`repr` of a float.  CPython prints the shortest decimal
string that round-trips through the binary64 value; this model prints the
exact decimal expansion instead.  The two agree on every value a document
of this program renders in the claims below: integral values below `10^16`
(all v4 denominations are 32-bit integers) print as `N.0`, and short
decimal literals reprint as themselves. -/
def pyFloatRepr : PyFloat → String
  | .nan => "nan"
  | .inf true => "-inf"
  | .inf false => "inf"
  | .finite q =>
    let sign := if q.num < 0 then "-" else ""
    let n := q.num.natAbs
    if q.den = 1 then sign ++ toString n ++ ".0"
    else
      match denExp q.den with
      | none => sign ++ toString n ++ "/" ++ toString q.den
      | some k =>
        let scaled := n * 10 ^ k / q.den
        let ipart := scaled / 10 ^ k
        let fdigits := (toString (scaled % 10 ^ k)).data
        let padded := List.replicate (k - fdigits.length) '0' ++ fdigits
        let trimmed := (padded.reverse.dropWhile (fun c => c = '0')).reverse
        let fstr := if trimmed = [] then "0" else String.mk trimmed
        sign ++ toString ipart ++ "." ++ fstr

/-! ## Document model (`GBDocBond`, `GBDoc`) and the CSV serializer -/

/-- One bond record: series code, issue-date display string, denomination
(the Python float produced by `float(...)`), and serial number. -/
structure GBDocBond where
  series : String
  idate : String
  denom : PyFloat
  sn : String
  deriving DecidableEq

/-- The document: a title and the bonds in insertion (= on-disk) order. -/
structure GBDoc where
  title : String
  bonds : List GBDocBond
  deriving DecidableEq

/-- Whether `csv.writer` (default dialect, `QUOTE_MINIMAL`) must quote a
field: it contains the delimiter, the quote character, or a character of
the line terminator. -/
def csvQuoteNeeded (s : String) : Bool :=
  s.data.any (fun c => c = ',' ∨ c = '"' ∨ c = '\r' ∨ c = '\n')

/-- Doubles every embedded quote character. -/
def csvEscape (s : String) : String :=
  String.mk (s.data.foldr (fun c acc => if c = '"' then '"' :: '"' :: acc else c :: acc) [])

/-- One CSV field under minimal quoting. -/
def csvField (s : String) : String :=
  if csvQuoteNeeded s then "\"" ++ csvEscape s ++ "\"" else s

/-- One `writer.writerow(...)` call: comma-joined fields plus the default
`\r\n` terminator. -/
def csvRow (fields : List String) : String :=
  String.intercalate "," (fields.map csvField) ++ "\r\n"

/-- Model of `GBDoc.to_csv`: optional header row, then one row per bond in
column order Series, Denomination, Serial Number, Issue Date. -/
def GBDoc.to_csv (doc : GBDoc) (includeHeader : Bool) : String :=
  (if includeHeader then csvRow ["Series", "Denomination", "Serial Number", "Issue Date"]
   else "")
    ++ String.join (doc.bonds.map (fun b => csvRow [b.series, pyFloatRepr b.denom, b.sn, b.idate]))

/-! ## Status codes and errors -/

def GB_OK : Nat := 0

def GB_ERROR_OPEN_SBW_CANNOT_OPEN_FILE : Nat := 1

def GB_ERROR_OPEN_SBW_BAD_MAGIC : Nat := 2

def GB_ERROR_OPEN_SBW_PARSE : Nat := 3

/-- Python exceptions that can escape the decoders: `struct.error` from
unpacking an empty read, `UnicodeDecodeError` from `bytes.decode`, and
the `ValueError` raised by constructing a `datetime` whose year exceeds
`datetime.MAXYEAR = 9999`. -/
inductive PyErr
  | structErr
  | unicodeErr
  | dateRangeErr
  deriving DecidableEq

deriving instance DecidableEq for Except

/-- The argument `float()` receives in `gb_doc_bond_new`: a string in the
v2 decoder, a non-negative 32-bit integer in the v4 decoder. -/
inductive PyNum
  | ofStr (s : String)
  | ofNat (n : Nat)
  deriving DecidableEq

/-- Applying `float(...)` to either kind of argument; `none` models the
`ValueError` that `gb_doc_bond_new` catches. -/
def pyFloatFn : PyNum → Option PyFloat
  | .ofStr s => pyFloatParse s
  | .ofNat n => some (.finite (n : Rat))

/-- Model of `gb_doc_bond_new`: builds the record unless `float(denom)`
fails, in which case the caller's status becomes `GB_ERROR_OPEN_SBW_PARSE`
(modelled by `none`). -/
def gb_doc_bond_new (series idate : String) (denom : PyNum) (sn : String) : Option GBDocBond :=
  (pyFloatFn denom).map (fun q => { series := series, idate := idate, denom := q, sn := sn })

/-! ## Date codec (`gb_date_fmt`) -/

/-- Calendar-month addition as `dateutil.relativedelta(months = delta)`
performs it on a day-1 date: normalise `month - 1 + delta` into years and
a month. -/
def relAddMonths (y m delta : Nat) : Nat × Nat :=
  let t := (m - 1) + delta
  (y + t / 12, t % 12 + 1)

/-- Zero-padded two-digit month as `%m` formats it. -/
def pad2 (n : Nat) : String := if n < 10 then "0" ++ toString n else toString n

/-- The `MM/YYYY` string `strftime('%m/%Y')` produces for a given year and
month (every reachable year has four digits). -/
def dateStr (months : Nat) : String :=
  let ym := relAddMonths 1941 4 months
  pad2 ym.2 ++ "/" ++ toString ym.1

/-- Model of `gb_date_fmt`: `SBW4_EPOCH + relativedelta(months = m)` then
`strftime('%m/%Y')`.  Building the shifted `datetime` raises `ValueError`
(year out of range) when the resulting year exceeds
`datetime.MAXYEAR = 9999`, i.e. for every `months ≥ 96705`. -/
def gb_date_fmt (months : Nat) : Except PyErr String :=
  let ym := relAddMonths 1941 4 months
  if ym.1 ≤ 9999 then .ok (pad2 ym.2 ++ "/" ++ toString ym.1)
  else .error .dateRangeErr

/-! ## The v2 text decoder (`read_sbw2`) -/

/-- The two accepted magic lines, as byte strings with their quote
characters: `b'"SBW 2"'` and `b'"SBW 3"'`. -/
def v2Magics : List (List Nat) :=
  [[34, 83, 66, 87, 32, 50, 34], [34, 83, 66, 87, 32, 51, 34]]

/-- Strips whitespace and then surrounding quotes, as every v2 field is
cleaned. -/
def v2FieldClean (s : String) : String := pyStripQuotes (pyStripStr s)

/-- What one iteration of the v2 record loop does with the raw bytes
`readline` returned. -/
inductive V2Step
  | uerr
  | skip
  | parseFail
  | keep (b : GBDocBond)
  deriving DecidableEq

/-- The body of the v2 record loop on one line: decode it, split on the
first four commas, skip it when fewer than four fields result, otherwise
clean the four fields and build the bond; a failing `float(denom)` fails
the whole decode. -/
def v2LineStep (lineBytes : List Nat) : V2Step :=
  match utf8Decode lineBytes with
  | none => .uerr
  | some line =>
    match pySplitComma4 line with
    | f0 :: f1 :: f2 :: f3 :: _ =>
      let sn := v2FieldClean f0
      let denom := v2FieldClean f1
      let series := v2FieldClean f2
      let idate := v2FieldClean f3
      match gb_doc_bond_new series idate (.ofStr denom) sn with
      | none => .parseFail
      | some b => .keep b
    | _ => .skip

/-- The v2 record loop: `for _ in range(n)`, reading one line per
iteration and acting on it as `v2LineStep` describes. -/
def v2Loop : Nat → List Nat → List GBDocBond → Except PyErr (Nat × Option (List GBDocBond))
  | 0, _, acc => .ok (GB_OK, some acc)
  | k + 1, bs, acc =>
    let p := pyReadline bs
    match v2LineStep p.1 with
    | .uerr => .error .unicodeErr
    | .skip => v2Loop k p.2 acc
    | .parseFail => .ok (GB_ERROR_OPEN_SBW_PARSE, none)
    | .keep b => v2Loop k p.2 (acc ++ [b])

/-- Model of `read_sbw2`: magic line (stripped, compared byte-exactly),
quoted title line, discarded redemption-date line, integer count line
(decode or parse failure is the caught `ValueError`), then the record
loop.  A negative count runs the loop zero times, as `range` does. -/
def read_sbw2 (bs : List Nat) : Except PyErr (Nat × Option GBDoc) :=
  let p1 := pyReadline bs
  if pyStripBytes p1.1 ∈ v2Magics then
    let p2 := pyReadline p1.2
    match utf8Decode p2.1 with
    | none => .error .unicodeErr
    | some t =>
      let title := pyStripQuotes (pyStripStr t)
      let p3 := pyReadline p2.2
      let p4 := pyReadline p3.2
      match (utf8Decode p4.1).bind (fun s => pyIntParse (pyStripStr s)) with
      | none => .ok (GB_ERROR_OPEN_SBW_PARSE, none)
      | some n =>
        (v2Loop n.toNat p4.2 []).map
          (fun r => (r.1, r.2.map (fun bonds => { title := title, bonds := bonds })))
  else .ok (GB_ERROR_OPEN_SBW_BAD_MAGIC, none)

/-! ## The v4 binary decoder (`read_sbw4`) -/

/-- Little-endian 16-bit unpacking of consecutive byte pairs
(`struct.unpack('<HHHHHH', ...)`). -/
def leWord16 : List Nat → List Nat
  | b0 :: b1 :: rest => (b0 + 256 * b1) :: leWord16 rest
  | _ => []

/-- Little-endian 32-bit unpacking of consecutive byte quadruples
(`struct.unpack('<' + 'I' * 21, ...)`). -/
def leWords32 : List Nat → List Nat
  | b0 :: b1 :: b2 :: b3 :: rest =>
    (b0 + 256 * (b1 + 256 * (b2 + 256 * b3))) :: leWords32 rest
  | _ => []

/-- Model of `struct.unpack('<B', x)[0]`: requires exactly one byte,
raising `struct.error` otherwise (in particular on the empty read at end
of file). -/
def unpackB : List Nat → Option Nat
  | [b] => some b
  | _ => none

/-- One length-prefixed variable field of the v4 format: a 1-byte length
then that many payload bytes (fewer are silently returned at end of
file).  Raises `struct.error` when the length byte itself is missing. -/
def readLenPrefixed (bs : List Nat) : Except PyErr (List Nat × List Nat) :=
  match unpackB (pyRead bs 1).1 with
  | none => .error .structErr
  | some n =>
    let bs1 := (pyRead bs 1).2
    if n > 0 then .ok ((pyRead bs1 n).1, (pyRead bs1 n).2) else .ok ([], bs1)

/-- The accepted series codes. -/
def v4SeriesSet : List String := ["E", "S", "EE", "I"]

/-- The v4 record loop: for each remaining record read the 84-byte fixed
block (short read fails the decode with parse-error), unpack denomination
(index 6) and issue date (index 10), consume the notes, serial-number and
series length-prefixed fields, skip the 2-byte separator when this is not
the last record, and keep the record only when its upper-cased series code
is accepted. -/
def sbw4Loop : Nat → List Nat → List GBDocBond → Except PyErr (Nat × Option (List GBDocBond))
  | 0, _, acc => .ok (GB_OK, some acc)
  | rem + 1, bs0, acc =>
    let pb := pyRead bs0 84
    if pb.1.length < 84 then .ok (GB_ERROR_OPEN_SBW_PARSE, none)
    else
      let unpacked := leWords32 pb.1
      let denom := unpacked.getD 6 0
      let idate := unpacked.getD 10 0
      match readLenPrefixed pb.2 with
      | .error e => .error e
      | .ok notesP =>
        match readLenPrefixed notesP.2 with
        | .error e => .error e
        | .ok snP =>
          match utf8Decode snP.1 with
          | none => .error .unicodeErr
          | some sn =>
            match readLenPrefixed snP.2 with
            | .error e => .error e
            | .ok serP =>
              match utf8Decode serP.1 with
              | none => .error .unicodeErr
              | some series =>
                let bs5 := if rem ≥ 1 then (pyRead serP.2 2).2 else serP.2
                if pyUpper series ∈ v4SeriesSet then
                  match gb_date_fmt idate with
                  | .error e => .error e
                  | .ok ds =>
                    match gb_doc_bond_new series ds (.ofNat denom) sn with
                    | none => .ok (GB_ERROR_OPEN_SBW_PARSE, none)
                    | some b => sbw4Loop rem bs5 (acc ++ [b])
                else sbw4Loop rem bs5 acc

/-- Model of `read_sbw4`: the 12-byte header of six little-endian 16-bit
words (short read fails with parse-error), record count at index 2, the
5-byte `CBond` marker read and discarded, then the record loop.  The title
is the fixed literal. -/
def read_sbw4 (bs : List Nat) : Except PyErr (Nat × Option GBDoc) :=
  let ph := pyRead bs 12
  if ph.1.length < 12 then .ok (GB_ERROR_OPEN_SBW_PARSE, none)
  else
    let nBonds := (leWord16 ph.1).getD 2 0
    let body := (pyRead ph.2 5).2
    (sbw4Loop nBonds body []).map
      (fun r => (r.1, r.2.map (fun bonds => { title := "Imported SBW4 Inventory", bonds := bonds })))

/-! ## Format sniffer (`gb_doc_sbw_open`) -/

/-- The sniffer's classification of a source. -/
inductive SBWFormat
  | v2
  | v4
  | unrecognized
  deriving DecidableEq

/-- Model of `fp.readline()` at an explicit cursor: the line read and the
new cursor position. -/
def readlineFrom (bs : List Nat) (pos : Nat) : List Nat × Nat :=
  let line := (pyReadline (bs.drop pos)).1
  (line, pos + line.length)

/-- Model of `fp.read(n)` at an explicit cursor. -/
def readFrom (bs : List Nat) (pos n : Nat) : List Nat × Nat :=
  let chunk := (bs.drop pos).take n
  (chunk, pos + chunk.length)

/-- The 5-byte ASCII marker `CBond`. -/
def cbondBytes : List Nat := [67, 66, 111, 110, 100]

/-- The sniffing part of `gb_doc_sbw_open`, with the file position made
explicit: read the first line, seek back to 0; classify v2 when that line
starts with one of the quoted magic literals; otherwise seek to 12, read 5
bytes, classify v4 when they start with `CBond`, and seek back to 0.
Returns the classification and the position the decoder would then see. -/
def sniffRun (bs : List Nat) (pos : Nat) : SBWFormat × Nat :=
  let firstLine := (readlineFrom bs pos).1
  let posA := 0
  if List.isPrefixOf [34, 83, 66, 87, 32, 50, 34] firstLine
      ∨ List.isPrefixOf [34, 83, 66, 87, 32, 51, 34] firstLine then
    (SBWFormat.v2, posA)
  else
    let cbond := (readFrom bs 12 5).1
    let posB := 0
    if List.isPrefixOf cbondBytes cbond then (SBWFormat.v4, posB)
    else (SBWFormat.unrecognized, posB)

/-- The dispatch of `gb_doc_sbw_open` once the file is open: sniff, then
run the selected decoder from the restored position (0), or report
bad-magic.  (The file-existence check and `CannotOpen` path live outside
the byte-level model.) -/
def gb_doc_sbw_open (bs : List Nat) : Except PyErr (Nat × Option GBDoc) :=
  match (sniffRun bs 0).1 with
  | .v2 => read_sbw2 bs
  | .v4 => read_sbw4 bs
  | .unrecognized => .ok (GB_ERROR_OPEN_SBW_BAD_MAGIC, none)

/-! ## Well-formed v4 inputs, described record by record -/

/-- Little-endian encoding of a 16-bit word. -/
def le16 (w : Nat) : List Nat := [w % 256, w / 256 % 256]

/-- Little-endian encoding of a 32-bit word. -/
def le32 (w : Nat) : List Nat := [w % 256, w / 256 % 256, w / 65536 % 256, w / 16777216 % 256]

/-- The on-disk content of one v4 record: the 21 fixed 32-bit words, the
three length-prefixed byte fields, and the 2-byte separator that follows
the record when it is not the last one. -/
structure SBW4Rec where
  words : List Nat
  notes : List Nat
  sn : List Nat
  series : List Nat
  gap : List Nat
  deriving DecidableEq

/-- The bytes of one record, separator excluded. -/
def encRecCore (r : SBW4Rec) : List Nat :=
  (r.words.map le32).flatten ++
    r.notes.length :: (r.notes ++ r.sn.length :: (r.sn ++ r.series.length :: r.series))

/-- Records each followed by their separator (the encoding of a proper
prefix of the file's records, none of which is the last). -/
def encGapped (recs : List SBW4Rec) : List Nat :=
  (recs.map (fun r => encRecCore r ++ r.gap)).flatten

/-- All records of a file: separators between records, none after the
last. -/
def encRecs : List SBW4Rec → List Nat
  | [] => []
  | [r] => encRecCore r
  | r :: rs => encRecCore r ++ (r.gap ++ encRecs rs)

/-- The 12-byte header: six little-endian 16-bit words, record count at
index 2. -/
def mkV4Header (w0 w1 n w3 w4 w5 : Nat) : List Nat :=
  le16 w0 ++ (le16 w1 ++ (le16 n ++ (le16 w3 ++ (le16 w4 ++ le16 w5))))

/-- A v4 file: header, `CBond` marker, body. -/
def mkV4 (w0 w1 n w3 w4 w5 : Nat) (body : List Nat) : List Nat :=
  mkV4Header w0 w1 n w3 w4 w5 ++ (cbondBytes ++ body)

/-- Structural well-formedness of one record, matching the format
description: 21 words of 32 bits, field lengths that fit their 1-byte
prefixes, a 2-byte separator, and UTF-8 text in the serial-number and
series fields. -/
def WFRec (r : SBW4Rec) : Prop :=
  r.words.length = 21 ∧ (∀ w ∈ r.words, w < 4294967296) ∧
    r.notes.length ≤ 255 ∧ r.sn.length ≤ 255 ∧ r.series.length ≤ 255 ∧
    r.gap.length = 2 ∧ (utf8Decode r.sn).isSome ∧ (utf8Decode r.series).isSome

/-- The denomination word (index 6) of a record. -/
def recDenom (r : SBW4Rec) : Nat := r.words.getD 6 0

/-- The issue-date word (index 10) of a record. -/
def recIdate (r : SBW4Rec) : Nat := r.words.getD 10 0

/-- The decoded serial number of a record. -/
def recSn (r : SBW4Rec) : String := (utf8Decode r.sn).getD ""

/-- The decoded series code of a record. -/
def recSeries (r : SBW4Rec) : String := (utf8Decode r.series).getD ""

/-- Whether the v4 filter keeps a record: its upper-cased series code is
one of `E`, `S`, `EE`, `I`. -/
def v4Keep (r : SBW4Rec) : Bool := decide (pyUpper (recSeries r) ∈ v4SeriesSet)

/-- The bond a kept record decodes to. -/
def recBond (r : SBW4Rec) : GBDocBond :=
  { series := recSeries r, idate := dateStr (recIdate r),
    denom := .finite (recDenom r), sn := recSn r }

/-- The bonds of a valid v4 file: exactly the kept records, in file
order. -/
def v4Bonds (recs : List SBW4Rec) : List GBDocBond :=
  (recs.filter v4Keep).map recBond

/-! ## Well-formed v2 inputs, described line by line -/

/-- Newline-terminates and concatenates a list of lines. -/
def mkLines (ls : List (List Nat)) : List Nat :=
  ls.foldr (fun l acc => l ++ 10 :: acc) []

/-- A v2 file: magic line, title line, redemption-date line, count line,
then the record region. -/
def mkV2 (magic title rdate count rest : List Nat) : List Nat :=
  magic ++ 10 :: (title ++ 10 :: (rdate ++ 10 :: (count ++ 10 :: rest)))

/-- The step the v2 loop takes on a present, newline-terminated line. -/
def stepOf (l : List Nat) : V2Step := v2LineStep (l ++ [10])

/-- Replays a list of per-line steps the way the v2 loop consumes them:
the first decode error raises, the first failing denomination ends the
decode with parse-error, skipped lines contribute nothing. -/
def runSteps : List V2Step → List GBDocBond → Except PyErr (Nat × Option (List GBDocBond))
  | [], acc => .ok (GB_OK, some acc)
  | .uerr :: _, _ => .error .unicodeErr
  | .skip :: r, acc => runSteps r acc
  | .parseFail :: _, _ => .ok (GB_ERROR_OPEN_SBW_PARSE, none)
  | .keep b :: r, acc => runSteps r (acc ++ [b])

/-- The bond a step contributes, if any. -/
def extractKeep : V2Step → Option GBDocBond
  | .keep b => some b
  | _ => none

/-- The bonds of a v2 record region whose lines all either decode to a
record or are skipped. -/
def v2Bonds (ls : List (List Nat)) : List GBDocBond :=
  (ls.map stepOf).filterMap extractKeep

/-- Hypotheses under which a v4 record decodes cleanly: structural
well-formedness plus an issue date the date codec can format when the
record is kept. -/
def GoodRec (r : SBW4Rec) : Prop :=
  WFRec r ∧ (v4Keep r = true → recIdate r ≤ 96704)

instance (r : SBW4Rec) : Decidable (WFRec r) := by
  unfold WFRec
  infer_instance

instance (r : SBW4Rec) : Decidable (GoodRec r) := by
  unfold GoodRec
  infer_instance

/-! ## Concrete inputs used by counterexamples and witnesses -/

/-- Decode a byte source with the v4 decoder and, on success, render the
document with the tabular serializer (header row on, as by default). -/
def decodeToCsv (bs : List Nat) : Option String :=
  match read_sbw4 bs with
  | .ok (c, some d) => if c = GB_OK then some (d.to_csv true) else none
  | _ => none

/-- The sniffer AS THE CLAIM STATES IT (refinement reference, not the
code): FormatV2 exactly when the first line, after trim, equals one of the
quoted literals; otherwise FormatV4 exactly when bytes 12..16 equal
`CBond`. -/
def sniffClaimC3 (bs : List Nat) : SBWFormat :=
  let firstLine := (readlineFrom bs 0).1
  if pyStripBytes firstLine = [34, 83, 66, 87, 32, 50, 34]
      ∨ pyStripBytes firstLine = [34, 83, 66, 87, 32, 51, 34] then .v2
  else if (bs.drop 12).take 5 = cbondBytes then .v4
  else .unrecognized

/-- A source whose first line carries an extra byte after the quoted
magic literal: `"SBW 2"X`. -/
def c3Bytes : List Nat := [34, 83, 66, 87, 32, 50, 34, 88]

/-- The single record of the end-to-end example: series `E`, raw
denomination 50 (word index 6), raw issue date 0 (word index 10), serial
`A1`. -/
def c1Rec : SBW4Rec :=
  { words := [0, 0, 0, 0, 0, 0, 50, 0, 0, 0, 0, 0, 0, 0, 0, 0, 0, 0, 0, 0, 0],
    notes := [], sn := [65, 49], series := [69], gap := [0, 0] }

/-- The end-to-end example source: v4 header with `n = 1`, then the
record. -/
def c1Bytes : List Nat := mkV4 0 0 1 0 0 0 (encRecs [c1Rec])

/-- The bond the example decodes to (`float(50)` is `50.0`). -/
def c1Bond : GBDocBond :=
  { series := "E", idate := "04/1941", denom := .finite 50, sn := "A1" }

/-- The document the example decodes to. -/
def c1Doc : GBDoc := { title := "Imported SBW4 Inventory", bonds := [c1Bond] }

/-- A structurally valid record whose series is accepted but whose raw
issue date (100000 months) runs past `datetime.MAXYEAR`. -/
def c6Rec : SBW4Rec :=
  { words := [0, 0, 0, 0, 0, 0, 7, 0, 0, 0, 100000, 0, 0, 0, 0, 0, 0, 0, 0, 0, 0],
    notes := [], sn := [65], series := [69], gap := [0, 0] }

/-- A valid v4 file (header `n = 1`) holding only `c6Rec`. -/
def c6Bytes : List Nat := mkV4 0 0 1 0 0 0 (encRecs [c6Rec])

/-- A v4 source truncated INSIDE the final record's series payload: the
series field declares 2 bytes but only the byte `E` remains before end of
file. -/
def c2Bytes : List Nat :=
  mkV4 0 0 1 0 0 0
    ((List.replicate 24 0 ++ [7] ++ List.replicate 59 0) ++ ([0] ++ ([1, 65] ++ [2, 69])))

/-- The document the truncated source nevertheless decodes to. -/
def c2Doc : GBDoc :=
  { title := "Imported SBW4 Inventory",
    bonds := [{ series := "E", idate := "04/1941", denom := .finite 7, sn := "A" }] }

/-- A v2 source whose single record line `SN1,-5,E,01/2000` carries a
negative denomination. -/
def c4Bytes : List Nat :=
  mkV2 [34, 83, 66, 87, 32, 50, 34] [34, 84, 34] [120] [49]
    (mkLines [[83, 78, 49, 44, 45, 53, 44, 69, 44, 48, 49, 47, 50, 48, 48, 48]])

/-- The document it decodes to: the bond holds `float('-5') = -5.0`. -/
def c4Doc : GBDoc :=
  { title := "T",
    bonds := [{ series := "E", idate := "01/2000", denom := .finite (-5), sn := "SN1" }] }

/-! ## Basic stream lemmas -/

theorem pyRead_append {l r : List Nat} {n : Nat} (h : l.length = n) :
    pyRead (l ++ r) n = (l, r) := by
  subst h
  simp [pyRead, List.take_left, List.drop_left]

theorem pyRead_short {bs : List Nat} {n : Nat} (h : bs.length ≤ n) :
    pyRead bs n = (bs, []) := by
  simp [pyRead, List.take_of_length_le h, List.drop_eq_nil_of_le h]

theorem pyReadline_append {l : List Nat} (rest : List Nat) (h : (10 : Nat) ∉ l) :
    pyReadline (l ++ 10 :: rest) = (l ++ [10], rest) := by
  induction l with
  | nil => simp [pyReadline]
  | cons b t ih =>
    have hb : b ≠ 10 := fun hb => h (hb ▸ List.mem_cons_self b t)
    have ht : (10 : Nat) ∉ t := fun hm => h (List.mem_cons_of_mem b hm)
    simp [pyReadline, hb, ih ht]

/-! ## Little-endian unpacking lemmas -/

theorem leWord16_le16 {w : Nat} (rest : List Nat) (h : w < 65536) :
    leWord16 (le16 w ++ rest) = w :: leWord16 rest := by
  simp only [le16, List.cons_append, List.nil_append, leWord16]
  congr 1
  omega

theorem leWords32_le32 {w : Nat} (rest : List Nat) (h : w < 4294967296) :
    leWords32 (le32 w ++ rest) = w :: leWords32 rest := by
  simp only [le32, List.cons_append, List.nil_append, leWords32]
  congr 1
  omega

theorem leWords32_flatten {ws : List Nat} (rest : List Nat)
    (h : ∀ w ∈ ws, w < 4294967296) :
    leWords32 ((ws.map le32).flatten ++ rest) = ws ++ leWords32 rest := by
  induction ws with
  | nil => simp
  | cons w t ih =>
    have hw : w < 4294967296 := h w (List.mem_cons_self w t)
    have ht : ∀ x ∈ t, x < 4294967296 := fun x hx => h x (List.mem_cons_of_mem w hx)
    simp only [List.map_cons, List.flatten_cons, List.append_assoc]
    rw [leWords32_le32 _ hw, ih ht]
    rfl

theorem flatten_le32_length (ws : List Nat) :
    ((ws.map le32).flatten).length = 4 * ws.length := by
  induction ws with
  | nil => simp
  | cons w t ih => simp [le32, ih]; omega

/-! ## Length-prefixed field lemma -/

theorem readLenPrefixed_enc (f rest : List Nat) :
    readLenPrefixed (f.length :: (f ++ rest)) = .ok (f, rest) := by
  cases f with
  | nil => rfl
  | cons b t =>
    simp only [readLenPrefixed, pyRead, List.take_succ_cons, List.take_zero,
      List.drop_succ_cons, List.drop_zero, unpackB, List.length_cons]
    rw [if_pos (Nat.succ_pos t.length)]
    rw [← List.length_cons b t, List.take_left, List.drop_left]

/-! ## Date codec lemmas -/

theorem gb_date_fmt_ok {m : Nat} (h : m ≤ 96704) :
    gb_date_fmt m = .ok (dateStr m) := by
  have : (relAddMonths 1941 4 m).1 ≤ 9999 := by
    simp only [relAddMonths]
    omega
  simp [gb_date_fmt, dateStr, this]

theorem gb_date_fmt_err {m : Nat} (h : 96705 ≤ m) :
    gb_date_fmt m = .error .dateRangeErr := by
  have : ¬ (relAddMonths 1941 4 m).1 ≤ 9999 := by
    simp only [relAddMonths]
    omega
  simp [gb_date_fmt, this]

/-! ## Processing one encoded v4 record -/

theorem sbw4Loop_step (rem : Nat) (r : SBW4Rec) (rest tail : List Nat) (acc : List GBDocBond)
    (h21 : r.words.length = 21) (hw : ∀ w ∈ r.words, w < 4294967296)
    (hsn : (utf8Decode r.sn).isSome) (hser : (utf8Decode r.series).isSome)
    (hdate : v4Keep r = true → recIdate r ≤ 96704)
    (htail : (if rem ≥ 1 then (pyRead tail 2).2 else tail) = rest) :
    sbw4Loop (rem + 1) (encRecCore r ++ tail) acc
      = sbw4Loop rem rest (acc ++ if v4Keep r then [recBond r] else []) := by
  obtain ⟨sns, hsns⟩ := Option.isSome_iff_exists.mp hsn
  obtain ⟨sers, hsers⟩ := Option.isSome_iff_exists.mp hser
  have hsnEq : recSn r = sns := by rw [recSn, hsns]; rfl
  have hserEq : recSeries r = sers := by rw [recSeries, hsers]; rfl
  have hA : ((r.words.map le32).flatten).length = 84 := by
    rw [flatten_le32_length, h21]
  have hshape : encRecCore r ++ tail
      = (r.words.map le32).flatten ++
          (r.notes.length :: (r.notes ++ r.sn.length :: (r.sn ++ r.series.length :: (r.series ++ tail)))) := by
    simp [encRecCore, List.append_assoc]
  have hWords : leWords32 ((r.words.map le32).flatten) = r.words := by
    have h0 := leWords32_flatten ([] : List Nat) hw
    rw [List.append_nil] at h0
    rw [h0, show leWords32 ([] : List Nat) = [] from rfl, List.append_nil]
  simp only [sbw4Loop]
  rw [hshape, pyRead_append hA]
  simp only [hA, lt_irrefl, if_false]
  rw [hWords]
  rw [readLenPrefixed_enc r.notes (r.sn.length :: (r.sn ++ r.series.length :: (r.series ++ tail)))]
  simp only []
  rw [readLenPrefixed_enc r.sn (r.series.length :: (r.series ++ tail))]
  simp only [hsns]
  rw [readLenPrefixed_enc r.series tail]
  simp only [hsers, htail]
  by_cases hk : pyUpper sers ∈ v4SeriesSet
  · have hkeep : v4Keep r = true := by
      rw [v4Keep, hserEq]
      exact decide_eq_true hk
    rw [if_pos hk]
    rw [show r.words.getD 10 0 = recIdate r from rfl]
    rw [gb_date_fmt_ok (hdate hkeep)]
    simp only [gb_doc_bond_new, pyFloatFn, Option.map_some']
    rw [hkeep]
    simp only [if_true]
    congr 2
    simp [recBond, recDenom, hserEq, hsnEq]
  · have hkeep : v4Keep r = false := by
      rw [v4Keep, hserEq]
      exact decide_eq_false hk
    rw [if_neg hk, hkeep, if_neg (by simp)]
    simp

theorem sbw4Loop_encRecs (recs : List SBW4Rec) (acc : List GBDocBond)
    (h : ∀ r ∈ recs, GoodRec r) :
    sbw4Loop recs.length (encRecs recs) acc = .ok (GB_OK, some (acc ++ v4Bonds recs)) := by
  induction recs generalizing acc with
  | nil => simp [encRecs, sbw4Loop, v4Bonds, GB_OK]
  | cons r rs ih =>
    obtain ⟨⟨h21, hw, -, -, -, hgap, hsn, hser⟩, hdate⟩ := h r (List.mem_cons_self r rs)
    have hrs : ∀ x ∈ rs, GoodRec x := fun x hx => h x (List.mem_cons_of_mem r hx)
    cases rs with
    | nil =>
      have hstep := sbw4Loop_step 0 r [] [] acc h21 hw hsn hser hdate (by simp)
      rw [show encRecs [r] = encRecCore r ++ [] from by simp [encRecs]]
      rw [show ([r] : List SBW4Rec).length = 0 + 1 from rfl, hstep]
      simp [sbw4Loop, v4Bonds, List.filter]
      cases hv : v4Keep r <;> simp [hv]
    | cons r2 rs2 =>
      have hlen : (r :: r2 :: rs2).length = (r2 :: rs2).length + 1 := rfl
      have hstep := sbw4Loop_step ((r2 :: rs2).length) r (encRecs (r2 :: rs2))
        (r.gap ++ encRecs (r2 :: rs2)) acc h21 hw hsn hser hdate
        (by
          have h1 : (r2 :: rs2).length ≥ 1 := Nat.succ_le_succ (Nat.zero_le _)
          rw [if_pos h1]
          obtain ⟨ga, gb, hgab⟩ := List.length_eq_two.mp hgap
          rw [hgab]
          simp [pyRead])
      rw [hlen, show encRecs (r :: r2 :: rs2) = encRecCore r ++ (r.gap ++ encRecs (r2 :: rs2)) from rfl]
      rw [hstep, ih _ hrs]
      have hbonds : v4Bonds (r :: r2 :: rs2)
          = (if v4Keep r then [recBond r] else []) ++ v4Bonds (r2 :: rs2) := by
        cases hv : v4Keep r <;> simp [v4Bonds, List.filter, hv]
      rw [hbonds, List.append_assoc]

theorem sbw4Loop_gapped (recs : List SBW4Rec) (k : Nat) (hk : 1 ≤ k)
    (tail : List Nat) (acc : List GBDocBond) (h : ∀ r ∈ recs, GoodRec r) :
    sbw4Loop (recs.length + k) (encGapped recs ++ tail) acc
      = sbw4Loop k tail (acc ++ v4Bonds recs) := by
  induction recs generalizing acc with
  | nil => simp [encGapped, v4Bonds]
  | cons r rs ih =>
    obtain ⟨⟨h21, hw, -, -, -, hgap, hsn, hser⟩, hdate⟩ := h r (List.mem_cons_self r rs)
    have hrs : ∀ x ∈ rs, GoodRec x := fun x hx => h x (List.mem_cons_of_mem r hx)
    have hshape : encGapped (r :: rs) ++ tail
        = encRecCore r ++ (r.gap ++ (encGapped rs ++ tail)) := by
      simp [encGapped, List.append_assoc]
    have hstep := sbw4Loop_step (rs.length + k) r (encGapped rs ++ tail)
      (r.gap ++ (encGapped rs ++ tail)) acc h21 hw hsn hser hdate
      (by
        have h1 : rs.length + k ≥ 1 := le_add_of_nonneg_of_le (Nat.zero_le _) hk
        rw [if_pos h1]
        obtain ⟨ga, gb, hgab⟩ := List.length_eq_two.mp hgap
        rw [hgab]
        simp [pyRead])
    rw [show (r :: rs).length + k = (rs.length + k) + 1 from by simp [Nat.add_right_comm]]
    rw [hshape, hstep, ih _ hrs]
    have hbonds : v4Bonds (r :: rs)
        = (if v4Keep r then [recBond r] else []) ++ v4Bonds rs := by
      cases hv : v4Keep r <;> simp [v4Bonds, List.filter, hv]
    rw [hbonds, List.append_assoc]

/-! ## The v4 wrapper on an encoded file -/

theorem read_sbw4_mkV4 (w0 w1 n w3 w4 w5 : Nat) (body : List Nat)
    (h0 : w0 < 65536) (h1 : w1 < 65536) (hn : n < 65536)
    (h3 : w3 < 65536) (h4 : w4 < 65536) (h5 : w5 < 65536) :
    read_sbw4 (mkV4 w0 w1 n w3 w4 w5 body)
      = (sbw4Loop n body []).map
          (fun r => (r.1, r.2.map (fun bonds =>
            ({ title := "Imported SBW4 Inventory", bonds := bonds } : GBDoc)))) := by
  have hh : (mkV4Header w0 w1 n w3 w4 w5).length = 12 := by
    simp [mkV4Header, le16]
  have hwords : leWord16 (mkV4Header w0 w1 n w3 w4 w5) = [w0, w1, n, w3, w4, w5] := by
    rw [mkV4Header]
    rw [show le16 w5 = le16 w5 ++ [] from (List.append_nil _).symm]
    rw [leWord16_le16 _ h0, leWord16_le16 _ h1, leWord16_le16 _ hn,
      leWord16_le16 _ h3, leWord16_le16 _ h4, leWord16_le16 _ h5]
    rfl
  simp only [read_sbw4, mkV4]
  rw [pyRead_append hh]
  simp only [hh, lt_irrefl, if_false]
  rw [hwords]
  simp [cbondBytes, pyRead]

/-! ## Truncated v4 streams -/

theorem sbw4Loop_shortBlock (k : Nat) (bs : List Nat) (acc : List GBDocBond)
    (h : bs.length < 84) :
    sbw4Loop (k + 1) bs acc = .ok (GB_ERROR_OPEN_SBW_PARSE, none) := by
  simp only [sbw4Loop]
  rw [pyRead_short (le_of_lt h)]
  simp only [h, if_true]

theorem sbw4Loop_eofAtLenByte (k : Nat) (ws : List Nat) (acc : List GBDocBond)
    (hlen : ws.length = 21) :
    sbw4Loop (k + 1) ((ws.map le32).flatten) acc = .error .structErr := by
  have hA : ((ws.map le32).flatten).length = 84 := by rw [flatten_le32_length, hlen]
  simp only [sbw4Loop]
  rw [show (ws.map le32).flatten = (ws.map le32).flatten ++ [] from (List.append_nil _).symm,
    pyRead_append hA]
  simp only [hA, lt_irrefl, if_false]
  rfl

/-! ## v2 loop lemmas -/

theorem v2LineStep_nilLine : v2LineStep [] = V2Step.skip := rfl

theorem v2Loop_nil (k : Nat) (acc : List GBDocBond) :
    v2Loop k [] acc = .ok (GB_OK, some acc) := by
  induction k with
  | zero => rfl
  | succ k ih =>
    simp only [v2Loop]
    rw [show pyReadline [] = (([] : List Nat), ([] : List Nat)) from rfl]
    rw [show v2LineStep [] = V2Step.skip from rfl]
    exact ih

theorem v2Loop_mkLines (ls : List (List Nat)) (k : Nat) (acc : List GBDocBond)
    (h : ∀ l ∈ ls, (10 : Nat) ∉ l) :
    v2Loop (ls.length + k) (mkLines ls) acc = runSteps (ls.map stepOf) acc := by
  induction ls generalizing acc with
  | nil =>
    simp only [List.length_nil, Nat.zero_add, List.map_nil, runSteps, mkLines, List.foldr_nil]
    exact v2Loop_nil k acc
  | cons l t ih =>
    have hl : (10 : Nat) ∉ l := h l (List.mem_cons_self l t)
    have ht : ∀ x ∈ t, (10 : Nat) ∉ x := fun x hx => h x (List.mem_cons_of_mem l hx)
    rw [show (l :: t).length + k = (t.length + k) + 1 from by simp [Nat.add_right_comm]]
    rw [show mkLines (l :: t) = l ++ 10 :: mkLines t from rfl]
    simp only [v2Loop]
    rw [pyReadline_append _ hl]
    simp only [List.map_cons]
    rw [show v2LineStep (l ++ [10]) = stepOf l from rfl]
    cases hs : stepOf l
    · rfl
    · exact ih _ ht
    · rfl
    · exact ih _ ht

theorem runSteps_ok (steps : List V2Step) (acc : List GBDocBond)
    (h : ∀ st ∈ steps, st ≠ .uerr ∧ st ≠ .parseFail) :
    runSteps steps acc = .ok (GB_OK, some (acc ++ steps.filterMap extractKeep)) := by
  induction steps generalizing acc with
  | nil => simp [runSteps]
  | cons st t ih =>
    have hst := h st (List.mem_cons_self st t)
    have ht : ∀ x ∈ t, x ≠ V2Step.uerr ∧ x ≠ V2Step.parseFail :=
      fun x hx => h x (List.mem_cons_of_mem st hx)
    cases st with
    | uerr => exact absurd rfl hst.1
    | parseFail => exact absurd rfl hst.2
    | skip =>
      rw [show runSteps (V2Step.skip :: t) acc = runSteps t acc from rfl, ih _ ht]
      simp [extractKeep]
    | keep b =>
      rw [show runSteps (V2Step.keep b :: t) acc = runSteps t (acc ++ [b]) from rfl, ih _ ht]
      simp [extractKeep]

theorem runSteps_fail (steps : List V2Step) (acc : List GBDocBond)
    (hu : ∀ st ∈ steps, st ≠ .uerr) (hf : V2Step.parseFail ∈ steps) :
    runSteps steps acc = .ok (GB_ERROR_OPEN_SBW_PARSE, none) := by
  induction steps generalizing acc with
  | nil => cases hf
  | cons st t ih =>
    have hst := hu st (List.mem_cons_self st t)
    have ht : ∀ x ∈ t, x ≠ V2Step.uerr := fun x hx => hu x (List.mem_cons_of_mem st hx)
    cases st with
    | uerr => exact absurd rfl hst
    | parseFail => rfl
    | skip =>
      have hft : V2Step.parseFail ∈ t := by
        rcases List.mem_cons.mp hf with h1 | h1
        · cases h1
        · exact h1
      exact ih _ ht hft
    | keep b =>
      have hft : V2Step.parseFail ∈ t := by
        rcases List.mem_cons.mp hf with h1 | h1
        · cases h1
        · exact h1
      exact ih _ ht hft

/-! ## The v2 wrapper on an encoded file -/

theorem read_sbw2_mkV2 (magic title rdate count rest : List Nat)
    (hm10 : (10 : Nat) ∉ magic) (ht10 : (10 : Nat) ∉ title)
    (hr10 : (10 : Nat) ∉ rdate) (hc10 : (10 : Nat) ∉ count)
    (hmagic : pyStripBytes (magic ++ [10]) ∈ v2Magics)
    (tline : String) (htitle : utf8Decode (title ++ [10]) = some tline)
    (n : Int)
    (hcount : (utf8Decode (count ++ [10])).bind (fun s => pyIntParse (pyStripStr s)) = some n) :
    read_sbw2 (mkV2 magic title rdate count rest)
      = (v2Loop n.toNat rest []).map
          (fun r => (r.1, r.2.map (fun bonds =>
            ({ title := pyStripQuotes (pyStripStr tline), bonds := bonds } : GBDoc)))) := by
  simp only [read_sbw2, mkV2]
  rw [pyReadline_append _ hm10]
  simp only []
  rw [if_pos hmagic]
  rw [pyReadline_append _ ht10]
  simp only [htitle]
  rw [pyReadline_append _ hr10]
  simp only []
  rw [pyReadline_append _ hc10]
  simp only [hcount]

/-! ## Characterising the v2 per-line step -/

theorem v2LineStep_skipOfShort (l : List Nat) (s : String)
    (hdec : utf8Decode (l ++ [10]) = some s)
    (hlt : (pySplitComma4 s).length < 4) : stepOf l = .skip := by
  rcases hsp : pySplitComma4 s with - | ⟨f0, - | ⟨f1, - | ⟨f2, - | ⟨f3, t⟩⟩⟩⟩
  · simp_all [stepOf, v2LineStep]
  · simp_all [stepOf, v2LineStep]
  · simp_all [stepOf, v2LineStep]
  · simp_all [stepOf, v2LineStep]
  · rw [hsp] at hlt
    simp only [List.length_cons] at hlt
    omega

theorem v2LineStep_failOfBadDenom (l : List Nat) (s : String) (f0 f1 f2 f3 : String)
    (t : List String) (hdec : utf8Decode (l ++ [10]) = some s)
    (hsp : pySplitComma4 s = f0 :: f1 :: f2 :: f3 :: t)
    (hfail : pyFloatParse (v2FieldClean f1) = none) : stepOf l = .parseFail := by
  simp [stepOf, v2LineStep, hdec, hsp, gb_doc_bond_new, pyFloatFn, hfail]

theorem v2LineStep_keepDenom (l : List Nat) (b : GBDocBond)
    (h : v2LineStep l = .keep b) : ∃ s, pyFloatParse s = some b.denom := by
  rw [v2LineStep] at h
  split at h
  · cases h
  · split at h
    · rename_i f0 f1 f2 f3 tl hsp
      simp only [gb_doc_bond_new, pyFloatFn] at h
      rcases hq : pyFloatParse (v2FieldClean f1) with - | q
      · rw [hq] at h
        simp at h
      · rw [hq] at h
        simp only [Option.map_some'] at h
        cases h
        exact ⟨v2FieldClean f1, hq⟩
    · cases h

/-! ## Denomination provenance: every bond of a returned document -/

theorem exceptMap_eq_ok {α β γ : Type} {f : β → γ} {x : Except α β} {y : γ}
    (h : x.map f = Except.ok y) : ∃ p, x = .ok p ∧ f p = y := by
  cases x with
  | error e => simp [Except.map] at h
  | ok p =>
    refine ⟨p, rfl, ?_⟩
    simpa [Except.map] using h

theorem sbw4Loop_denoms (rem : Nat) :
    ∀ (bs : List Nat) (acc : List GBDocBond) (c : Nat) (out : List GBDocBond),
      sbw4Loop rem bs acc = .ok (c, some out) →
      (∀ b ∈ acc, ∃ n : Nat, b.denom = .finite (n : Rat)) →
      ∀ b ∈ out, ∃ n : Nat, b.denom = .finite (n : Rat) := by
  induction rem with
  | zero =>
    intro bs acc c out h hacc
    simp only [sbw4Loop, Except.ok.injEq, Prod.mk.injEq, Option.some.injEq] at h
    obtain ⟨-, rfl⟩ := h
    exact hacc
  | succ rem ih =>
    intro bs acc c out h hacc
    simp only [sbw4Loop] at h
    split at h
    · simp at h
    · split at h
      · simp at h
      · split at h
        · simp at h
        · split at h
          · simp at h
          · split at h
            · simp at h
            · split at h
              · simp at h
              · split at h
                · split at h
                  · simp at h
                  · split at h
                    · simp at h
                    · rename_i b0 hb0
                      refine ih _ _ _ _ h (fun b hb => ?_)
                      rcases List.mem_append.mp hb with hb | hb
                      · exact hacc b hb
                      · have hbb := List.mem_singleton.mp hb
                        subst hbb
                        simp only [gb_doc_bond_new, pyFloatFn, Option.map_some'] at hb0
                        cases hb0
                        exact ⟨_, rfl⟩
                · exact ih _ _ _ _ h hacc

theorem v2Loop_denoms (k : Nat) :
    ∀ (bs : List Nat) (acc : List GBDocBond) (c : Nat) (out : List GBDocBond),
      v2Loop k bs acc = .ok (c, some out) →
      (∀ b ∈ acc, ∃ s, pyFloatParse s = some b.denom) →
      ∀ b ∈ out, ∃ s, pyFloatParse s = some b.denom := by
  induction k with
  | zero =>
    intro bs acc c out h hacc
    simp only [v2Loop, Except.ok.injEq, Prod.mk.injEq, Option.some.injEq] at h
    obtain ⟨-, rfl⟩ := h
    exact hacc
  | succ k ih =>
    intro bs acc c out h hacc
    simp only [v2Loop] at h
    split at h
    · simp at h
    · exact ih _ _ _ _ h hacc
    · simp at h
    · rename_i b0 hb0
      refine ih _ _ _ _ h (fun b hb => ?_)
      rcases List.mem_append.mp hb with hb | hb
      · exact hacc b hb
      · have hbb := List.mem_singleton.mp hb
        subst hbb
        exact v2LineStep_keepDenom _ _ hb0

theorem read_sbw4_denoms (bs : List Nat) (c : Nat) (doc : GBDoc)
    (h : read_sbw4 bs = .ok (c, some doc)) :
    ∀ b ∈ doc.bonds, ∃ n : Nat, b.denom = .finite (n : Rat) := by
  simp only [read_sbw4] at h
  split at h
  · simp at h
  · obtain ⟨⟨c1, ob⟩, hp, hf⟩ := exceptMap_eq_ok h
    rcases ob with - | bonds
    · simp at hf
    · simp only [Option.map_some'] at hf
      injection hf with h1 h2
      injection h2 with h3
      subst h3
      subst h1
      exact sbw4Loop_denoms _ _ _ _ _ hp (fun b hb => absurd hb (List.not_mem_nil b))

theorem read_sbw2_denoms (bs : List Nat) (c : Nat) (doc : GBDoc)
    (h : read_sbw2 bs = .ok (c, some doc)) :
    ∀ b ∈ doc.bonds, ∃ s, pyFloatParse s = some b.denom := by
  simp only [read_sbw2] at h
  split at h
  · split at h
    · simp at h
    · split at h
      · simp at h
      · obtain ⟨⟨c1, ob⟩, hp, hf⟩ := exceptMap_eq_ok h
        rcases ob with - | bonds
        · simp at hf
        · simp only [Option.map_some'] at hf
          injection hf with h1 h2
          injection h2 with h3
          subst h3
          subst h1
          exact v2Loop_denoms _ _ _ _ _ hp (fun b hb => absurd hb (List.not_mem_nil b))
  · simp at h

/-! ## Claim C8: the date codec -/

/-- C8, counterexample.  The claim promises a formatted `MM/YYYY` string
for EVERY non-negative integer, but at `m = 96705` the shifted date's year
is 10000 and `gb_date_fmt` raises instead of returning a string. -/
theorem c8_counterexample : gb_date_fmt 96705 = .error .dateRangeErr := by decide

/-- C8, amended.  The date codec maps `m` months since 1941-04-01 to the
zero-padded `MM/YYYY` string with month `(3 + m) % 12 + 1` and year
`1941 + (3 + m) / 12` for every `m` whose resulting year stays within
`datetime`'s range (`m ≤ 96704`); beyond that the codec raises a
`ValueError` (year out of range).  The three round-trip examples hold. -/
theorem c8_amended :
    (∀ m : Nat, m ≤ 96704 →
      gb_date_fmt m = .ok (pad2 ((3 + m) % 12 + 1) ++ "/" ++ toString (1941 + (3 + m) / 12)))
    ∧ (∀ m : Nat, 96705 ≤ m → gb_date_fmt m = .error .dateRangeErr)
    ∧ gb_date_fmt 0 = .ok "04/1941"
    ∧ gb_date_fmt 12 = .ok "04/1942"
    ∧ gb_date_fmt 9 = .ok "01/1942" := by
  refine ⟨fun m hm => ?_, fun m hm => gb_date_fmt_err hm, by decide, by decide, by decide⟩
  rw [gb_date_fmt_ok hm]
  rfl

/-- C8, witness for the amended theorem's hypotheses. -/
theorem c8_amended_witness :
    gb_date_fmt 5 = .ok (pad2 ((3 + 5) % 12 + 1) ++ "/" ++ toString (1941 + (3 + 5) / 12))
    ∧ gb_date_fmt 96705 = .error .dateRangeErr :=
  ⟨c8_amended.1 5 (by decide), c8_amended.2.1 96705 (by decide)⟩

/-! ## Claim C1: the end-to-end example -/

/-- C1, counterexample.  The example source decodes and renders, but the
body row is `E,50.0,A1,04/1941` — the denomination goes through
`float(50)` and `csv.writer` prints `50.0`, not the claimed `50`. -/
theorem c1_counterexample :
    decodeToCsv c1Bytes
        = some "Series,Denomination,Serial Number,Issue Date\r\nE,50.0,A1,04/1941\r\n"
    ∧ decodeToCsv c1Bytes
        ≠ some "Series,Denomination,Serial Number,Issue Date\r\nE,50,A1,04/1941\r\n" := by
  constructor
  · decide
  · decide

/-- C1, amended.  Decoding the v4 source with `n = 1`, series `E`, raw
denomination 50, raw issue date 0 and serial `A1`, then rendering with the
tabular serializer, produces the body row `E,50.0,A1,04/1941` in column
order Series, Denomination, Serial Number, Issue Date (the denomination is
rendered through Python's float as `50.0`). -/
theorem c1_amended :
    read_sbw4 c1Bytes = .ok (GB_OK, some c1Doc)
    ∧ GBDoc.to_csv c1Doc true
        = "Series,Denomination,Serial Number,Issue Date\r\nE,50.0,A1,04/1941\r\n" := by
  constructor
  · decide
  · decide

/-! ## Claim C10: the sniffer's frame -/

/-- C10, confirmed.  On every source the sniffer yields one of the three
classifications, leaves the cursor at position 0 (so the dispatched
decoder reads from the start), and running it again from that restored
position returns the identical classification and position. -/
theorem c10_sniffer_frame : ∀ bs : List Nat,
    ((sniffRun bs 0).1 = .v2 ∨ (sniffRun bs 0).1 = .v4 ∨ (sniffRun bs 0).1 = .unrecognized)
    ∧ (sniffRun bs 0).2 = 0
    ∧ sniffRun bs ((sniffRun bs 0).2) = sniffRun bs 0 := by
  intro bs
  have hpos : (sniffRun bs 0).2 = 0 := by
    simp only [sniffRun]
    split
    · rfl
    · split
      · rfl
      · rfl
  refine ⟨?_, hpos, by rw [hpos]⟩
  cases hf : (sniffRun bs 0).1
  · exact Or.inl rfl
  · exact Or.inr (Or.inl rfl)
  · exact Or.inr (Or.inr rfl)

/-! ## Claim C3: the sniffer's classification rule -/

theorem cbondProbe_eq (bs : List Nat) :
    List.isPrefixOf cbondBytes ((bs.drop 12).take 5) = true
      ↔ (bs.drop 12).take 5 = cbondBytes := by
  constructor
  · intro h
    have hp := List.isPrefixOf_iff_prefix.mp h
    have hlen1 : ((bs.drop 12).take 5).length ≤ 5 := by
      simp [List.length_take]
    have hlen2 : cbondBytes.length ≤ ((bs.drop 12).take 5).length := hp.length_le
    have hlen3 : cbondBytes.length = ((bs.drop 12).take 5).length := by
      rw [show cbondBytes.length = 5 from rfl] at hlen2 ⊢
      omega
    exact (hp.eq_of_length hlen3).symm
  · intro h
    rw [h]
    exact List.isPrefixOf_iff_prefix.mpr (List.prefix_refl _)

/-- C3, counterexample.  The source `"SBW 2"X` (quotes literal, one extra
byte) is NOT exactly the quoted literal after trim — the claim says it
must not be FormatV2 and must get the offset-12 probe (which would yield
Unrecognized here) — yet the code classifies it FormatV2, because it tests
`startswith` on the raw first line. -/
theorem c3_counterexample :
    (sniffRun c3Bytes 0).1 = .v2 ∧ sniffClaimC3 c3Bytes = .unrecognized := by
  constructor
  · decide
  · decide

/-- C3, amended.  The sniffer classifies FormatV2 exactly when the raw
first line STARTS WITH the quoted literal `"SBW 2"` or `"SBW 3"` (no
trimming, no exactness); only otherwise does it probe bytes 12..16,
classifying FormatV4 exactly when they equal `CBond`, and Unrecognized
otherwise. -/
theorem c3_amended : ∀ bs : List Nat,
    ((sniffRun bs 0).1 = .v2 ↔
      (List.isPrefixOf [34, 83, 66, 87, 32, 50, 34] (pyReadline bs).1
        ∨ List.isPrefixOf [34, 83, 66, 87, 32, 51, 34] (pyReadline bs).1))
    ∧ ((sniffRun bs 0).1 = .v4 ↔
      (¬ (List.isPrefixOf [34, 83, 66, 87, 32, 50, 34] (pyReadline bs).1
          ∨ List.isPrefixOf [34, 83, 66, 87, 32, 51, 34] (pyReadline bs).1)
        ∧ (bs.drop 12).take 5 = cbondBytes))
    ∧ ((sniffRun bs 0).1 = .unrecognized ↔
      (¬ (List.isPrefixOf [34, 83, 66, 87, 32, 50, 34] (pyReadline bs).1
          ∨ List.isPrefixOf [34, 83, 66, 87, 32, 51, 34] (pyReadline bs).1)
        ∧ (bs.drop 12).take 5 ≠ cbondBytes)) := by
  intro bs
  simp only [sniffRun, readlineFrom, readFrom, List.drop_zero]
  by_cases hpre : (List.isPrefixOf [34, 83, 66, 87, 32, 50, 34] (pyReadline bs).1 = true
      ∨ List.isPrefixOf [34, 83, 66, 87, 32, 51, 34] (pyReadline bs).1 = true)
  · rw [if_pos hpre]
    exact ⟨⟨fun _ => hpre, fun _ => rfl⟩,
      ⟨fun h => absurd h (by decide), fun h => absurd hpre h.1⟩,
      ⟨fun h => absurd h (by decide), fun h => absurd hpre h.1⟩⟩
  · rw [if_neg hpre]
    by_cases hcb : (bs.drop 12).take 5 = cbondBytes
    · rw [if_pos ((cbondProbe_eq bs).mpr hcb)]
      exact ⟨⟨fun h => absurd h (by decide), fun h => absurd h hpre⟩,
        ⟨fun _ => ⟨hpre, hcb⟩, fun _ => rfl⟩,
        ⟨fun h => absurd h (by decide), fun h => absurd hcb h.2⟩⟩
    · rw [if_neg (fun hx => hcb ((cbondProbe_eq bs).mp hx))]
      exact ⟨⟨fun h => absurd h (by decide), fun h => absurd h hpre⟩,
        ⟨fun h => absurd h (by decide), fun h => absurd h.2 hcb⟩,
        ⟨fun _ => ⟨hpre, hcb⟩, fun _ => rfl⟩⟩

/-! ## Claim C6: the v4 series filter -/

/-- C6, counterexample.  A structurally valid v4 input (header `n = 1`,
one complete record with accepted series `E`) whose raw issue date is
100000 makes the decode raise the date-range `ValueError` instead of
returning the Document with that record. -/
theorem c6_counterexample :
    WFRec c6Rec ∧ v4Keep c6Rec = true ∧ read_sbw4 c6Bytes = .error .dateRangeErr := by
  refine ⟨by decide, by decide, by decide⟩

/-- C6, amended.  For every valid v4 input whose kept records' raw issue
dates stay within the date codec's range (`≤ 96704`), the Document holds
exactly the records whose upper-cased series code is in `{E, S, EE, I}`,
in file order, with success status and no error; a kept record with a
larger issue date instead raises out of the decoder (see the
counterexample). -/
theorem c6_amended (w0 w1 w3 w4 w5 : Nat) (recs : List SBW4Rec)
    (h0 : w0 < 65536) (h1 : w1 < 65536) (hn : recs.length < 65536)
    (h3 : w3 < 65536) (h4 : w4 < 65536) (h5 : w5 < 65536)
    (hwf : ∀ r ∈ recs, WFRec r)
    (hdate : ∀ r ∈ recs, v4Keep r = true → recIdate r ≤ 96704) :
    read_sbw4 (mkV4 w0 w1 recs.length w3 w4 w5 (encRecs recs))
      = .ok (GB_OK, some { title := "Imported SBW4 Inventory",
                           bonds := (recs.filter v4Keep).map recBond }) := by
  rw [read_sbw4_mkV4 w0 w1 recs.length w3 w4 w5 _ h0 h1 hn h3 h4 h5]
  rw [sbw4Loop_encRecs recs [] (fun r hr => ⟨hwf r hr, hdate r hr⟩)]
  simp [Except.map, v4Bonds]

/-- C6, witness for the amended theorem's hypotheses. -/
theorem c6_amended_witness :
    read_sbw4 (mkV4 0 0 [c1Rec].length 0 0 0 (encRecs [c1Rec]))
      = .ok (GB_OK, some { title := "Imported SBW4 Inventory",
                           bonds := ([c1Rec].filter v4Keep).map recBond }) :=
  c6_amended 0 0 0 0 0 [c1Rec] (by decide) (by decide) (by decide) (by decide)
    (by decide) (by decide) (by decide) (by decide)

/-! ## Claim C7: truncation of the final 84-byte block -/

/-- C7, confirmed.  A v4 source that declares one more record than its
well-formed prefix carries, and whose final record's fixed 84-byte block
is cut short by at least one byte at end of file, decodes to the
parse-error status with no document. -/
theorem c7_truncated_final_block (w0 w1 w3 w4 w5 : Nat) (recs : List SBW4Rec)
    (shortBlock : List Nat)
    (h0 : w0 < 65536) (h1 : w1 < 65536) (hn : recs.length + 1 < 65536)
    (h3 : w3 < 65536) (h4 : w4 < 65536) (h5 : w5 < 65536)
    (hgood : ∀ r ∈ recs, GoodRec r)
    (hshort : shortBlock.length < 84) :
    read_sbw4 (mkV4 w0 w1 (recs.length + 1) w3 w4 w5 (encGapped recs ++ shortBlock))
      = .ok (GB_ERROR_OPEN_SBW_PARSE, none) := by
  rw [read_sbw4_mkV4 w0 w1 (recs.length + 1) w3 w4 w5 _ h0 h1 hn h3 h4 h5]
  rw [sbw4Loop_gapped recs 1 le_rfl _ [] hgood]
  have hend := sbw4Loop_shortBlock 0 shortBlock (v4Bonds recs) hshort
  rw [show (0 : Nat) + 1 = 1 from rfl] at hend
  rw [List.nil_append, hend]
  rfl

/-- C7, witness. -/
theorem c7_truncated_final_block_witness :
    read_sbw4 (mkV4 0 0 1 0 0 0 (encGapped [] ++ List.replicate 83 0))
      = .ok (GB_ERROR_OPEN_SBW_PARSE, none) :=
  c7_truncated_final_block 0 0 0 0 0 [] (List.replicate 83 0) (by decide) (by decide)
    (by decide) (by decide) (by decide) (by decide)
    (fun r hr => absurd hr (List.not_mem_nil r)) (by decide)

/-! ## Claim C2: short reads in the v4 decoder -/

/-- C2, counterexample.  A v4-classified source truncated inside the final
record's series payload (length byte says 2, one byte remains) does NOT
fail with ParseError: the decode returns a successful Document built from
the truncated data. -/
theorem c2_counterexample :
    (sniffRun c2Bytes 0).1 = .v4 ∧ read_sbw4 c2Bytes = .ok (GB_OK, some c2Doc) := by
  refine ⟨by decide, by decide⟩

/-- C2, amended.  Short reads are handled unevenly: a source shorter than
the 12-byte header, and a record's 84-byte block cut short at end of file,
fail with ParseError delivered as the discriminated status; but a source
that ends exactly where a 1-byte length prefix is due raises `struct.error`
out of the decoder, and a source truncated inside the final record's
series payload returns a successful Document (see the counterexample). -/
theorem c2_amended :
    (∀ bs : List Nat, bs.length < 12 → read_sbw4 bs = .ok (GB_ERROR_OPEN_SBW_PARSE, none))
    ∧ (∀ (w0 w1 w3 w4 w5 : Nat) (recs : List SBW4Rec) (shortBlock : List Nat),
        w0 < 65536 → w1 < 65536 → recs.length + 1 < 65536 →
        w3 < 65536 → w4 < 65536 → w5 < 65536 →
        (∀ r ∈ recs, GoodRec r) → shortBlock.length < 84 →
        read_sbw4 (mkV4 w0 w1 (recs.length + 1) w3 w4 w5 (encGapped recs ++ shortBlock))
          = .ok (GB_ERROR_OPEN_SBW_PARSE, none))
    ∧ (∀ (w0 w1 w3 w4 w5 k : Nat) (recs : List SBW4Rec) (ws : List Nat),
        w0 < 65536 → w1 < 65536 → recs.length + (k + 1) < 65536 →
        w3 < 65536 → w4 < 65536 → w5 < 65536 →
        (∀ r ∈ recs, GoodRec r) → ws.length = 21 →
        read_sbw4 (mkV4 w0 w1 (recs.length + (k + 1)) w3 w4 w5
            (encGapped recs ++ (ws.map le32).flatten))
          = .error .structErr) := by
  refine ⟨?_, ?_, ?_⟩
  · intro bs h
    simp only [read_sbw4]
    rw [pyRead_short (le_of_lt h)]
    simp only [h, if_true]
  · intro w0 w1 w3 w4 w5 recs shortBlock h0 h1 hn h3 h4 h5 hgood hshort
    rw [read_sbw4_mkV4 w0 w1 (recs.length + 1) w3 w4 w5 _ h0 h1 hn h3 h4 h5]
    rw [sbw4Loop_gapped recs 1 le_rfl _ [] hgood]
    have hend := sbw4Loop_shortBlock 0 shortBlock (v4Bonds recs) hshort
    rw [show (0 : Nat) + 1 = 1 from rfl] at hend
    rw [List.nil_append, hend]
    rfl
  · intro w0 w1 w3 w4 w5 k recs ws h0 h1 hn h3 h4 h5 hgood hws
    rw [read_sbw4_mkV4 w0 w1 (recs.length + (k + 1)) w3 w4 w5 _ h0 h1 hn h3 h4 h5]
    rw [sbw4Loop_gapped recs (k + 1) (Nat.succ_le_succ (Nat.zero_le k)) _ [] hgood]
    rw [List.nil_append, sbw4Loop_eofAtLenByte k ws _ hws]
    rfl

/-- C2, witness for the amended theorem's hypotheses. -/
theorem c2_amended_witness :
    read_sbw4 [] = .ok (GB_ERROR_OPEN_SBW_PARSE, none)
    ∧ read_sbw4 (mkV4 0 0 1 0 0 0 (encGapped [] ++ List.replicate 83 0))
        = .ok (GB_ERROR_OPEN_SBW_PARSE, none)
    ∧ read_sbw4 (mkV4 0 0 1 0 0 0 (encGapped [] ++ ((List.replicate 21 0).map le32).flatten))
        = .error .structErr :=
  ⟨c2_amended.1 [] (by decide),
    c2_amended.2.1 0 0 0 0 0 [] (List.replicate 83 0) (by decide) (by decide) (by decide)
      (by decide) (by decide) (by decide) (fun r hr => absurd hr (List.not_mem_nil r)) (by decide),
    c2_amended.2.2 0 0 0 0 0 0 [] (List.replicate 21 0) (by decide) (by decide) (by decide)
      (by decide) (by decide) (by decide) (fun r hr => absurd hr (List.not_mem_nil r)) (by decide)⟩

/-! ## Claim C4: denominations held in returned documents -/

/-- C4, counterexample.  The v2 source whose record line is
`SN1,-5,E,01/2000` decodes successfully storing `float('-5') = -5.0`: a
Document returned by a decoder can hold a NEGATIVE denomination, so the
claimed non-negativity invariant fails. -/
theorem c4_counterexample :
    read_sbw2 c4Bytes = .ok (GB_OK, some c4Doc)
    ∧ c4Doc.bonds.map (fun b => b.denom) = [PyFloat.finite (-5)]
    ∧ ((-5 : Rat) < 0) := by
  refine ⟨by decide, by decide, by decide⟩

/-- C4, amended.  Every bond held in a Document returned by a decoder has
a denomination that `float(...)` produced successfully: for v4 it is the
(necessarily non-negative) value of an unsigned 32-bit field, for v2 it is
the parse of some string — which may be negative, as the counterexample
shows.  A record whose denomination fails numeric parsing is never
constructed. -/
theorem c4_amended :
    (∀ (bs : List Nat) (c : Nat) (doc : GBDoc), read_sbw4 bs = .ok (c, some doc) →
      ∀ b ∈ doc.bonds, ∃ n : Nat, b.denom = .finite (n : Rat))
    ∧ (∀ (bs : List Nat) (c : Nat) (doc : GBDoc), read_sbw2 bs = .ok (c, some doc) →
      ∀ b ∈ doc.bonds, ∃ s, pyFloatParse s = some b.denom) :=
  ⟨read_sbw4_denoms, read_sbw2_denoms⟩

/-- C4, witness for the amended theorem's hypotheses. -/
theorem c4_amended_witness :
    (∃ n : Nat, c1Bond.denom = .finite (n : Rat))
    ∧ (∃ s, pyFloatParse s = some (PyFloat.finite (-5))) :=
  ⟨c4_amended.1 c1Bytes GB_OK c1Doc (by decide) c1Bond (by decide),
    c4_amended.2 c4Bytes GB_OK c4Doc (by decide)
      { series := "E", idate := "01/2000", denom := .finite (-5), sn := "SN1" } (by decide)⟩

/-! ## Claim C5: v2 per-line error handling -/

/-- C5, confirmed.  For a v2 source whose header is valid and whose count
matches its record lines: (1) if any record line's denomination field
fails to parse as a float, the ENTIRE decode fails with the parse-error
status and no document; (2) if no line fails, the decode succeeds and the
document holds exactly the bonds of the lines that were not skipped; (3) a
line splitting into fewer than four fields is skipped; (4) a line with at
least four fields whose cleaned second field does not parse as a float is
the failing case of (1). -/
theorem c5_v2_denom_failure_and_skip (magic title rdate count : List Nat)
    (ls : List (List Nat)) (tline : String) (n : Int)
    (hm10 : (10 : Nat) ∉ magic) (ht10 : (10 : Nat) ∉ title)
    (hr10 : (10 : Nat) ∉ rdate) (hc10 : (10 : Nat) ∉ count)
    (hl10 : ∀ l ∈ ls, (10 : Nat) ∉ l)
    (hmagic : pyStripBytes (magic ++ [10]) ∈ v2Magics)
    (htitle : utf8Decode (title ++ [10]) = some tline)
    (hcount : (utf8Decode (count ++ [10])).bind (fun s => pyIntParse (pyStripStr s)) = some n)
    (hn : n = (ls.length : Int))
    (hdec : ∀ l ∈ ls, stepOf l ≠ .uerr) :
    ((∃ l ∈ ls, stepOf l = .parseFail) →
        read_sbw2 (mkV2 magic title rdate count (mkLines ls))
          = .ok (GB_ERROR_OPEN_SBW_PARSE, none))
    ∧ ((∀ l ∈ ls, stepOf l ≠ .parseFail) →
        read_sbw2 (mkV2 magic title rdate count (mkLines ls))
          = .ok (GB_OK, some { title := pyStripQuotes (pyStripStr tline), bonds := v2Bonds ls }))
    ∧ (∀ (l : List Nat) (s : String), utf8Decode (l ++ [10]) = some s →
        (pySplitComma4 s).length < 4 → stepOf l = .skip)
    ∧ (∀ (l : List Nat) (s : String) (f0 f1 f2 f3 : String) (t : List String),
        utf8Decode (l ++ [10]) = some s →
        pySplitComma4 s = f0 :: f1 :: f2 :: f3 :: t →
        pyFloatParse (v2FieldClean f1) = none → stepOf l = .parseFail) := by
  have hrw := read_sbw2_mkV2 magic title rdate count (mkLines ls) hm10 ht10 hr10 hc10
    hmagic tline htitle n hcount
  have hnt : n.toNat = ls.length := by
    rw [hn]
    exact Int.toNat_natCast _
  have hloop0 : v2Loop ls.length (mkLines ls) [] = runSteps (ls.map stepOf) [] := by
    have h0 := v2Loop_mkLines ls 0 [] hl10
    rw [Nat.add_zero] at h0
    exact h0
  refine ⟨?_, ?_, ?_, ?_⟩
  · rintro ⟨l, hl, hfail⟩
    rw [hrw, hnt, hloop0, runSteps_fail]
    · rfl
    · intro st hst
      rcases List.mem_map.mp hst with ⟨l2, hl2, rfl⟩
      exact hdec l2 hl2
    · exact List.mem_map.mpr ⟨l, hl, hfail⟩
  · intro hok
    rw [hrw, hnt, hloop0, runSteps_ok]
    · simp [Except.map, v2Bonds]
    · intro st hst
      rcases List.mem_map.mp hst with ⟨l2, hl2, rfl⟩
      exact ⟨hdec l2 hl2, hok l2 hl2⟩
  · exact fun l s hd hlt => v2LineStep_skipOfShort l s hd hlt
  · exact fun l s f0 f1 f2 f3 t hd hsp hf => v2LineStep_failOfBadDenom l s f0 f1 f2 f3 t hd hsp hf

/-- C5, witness for the theorem's hypotheses: a source whose first record
line has only two fields (skipped) and whose second carries the
unparseable denomination `B`, making the whole decode fail. -/
theorem c5_v2_denom_failure_and_skip_witness :
    read_sbw2 (mkV2 [34, 83, 66, 87, 32, 50, 34] [34, 84, 34] [120] [50]
        (mkLines [[120, 44, 121], [65, 44, 66, 44, 69, 44, 68]]))
      = .ok (GB_ERROR_OPEN_SBW_PARSE, none) :=
  (c5_v2_denom_failure_and_skip [34, 83, 66, 87, 32, 50, 34] [34, 84, 34] [120] [50]
      [[120, 44, 121], [65, 44, 66, 44, 69, 44, 68]] "\"T\"\n" 2
      (by decide) (by decide) (by decide) (by decide) (by decide) (by decide)
      (by decide) (by decide) (by decide) (by decide)).1
    ⟨[65, 44, 66, 44, 69, 44, 68], by decide, by decide⟩

/-! ## Claim C9: v2 count exceeding the lines present -/

/-- C9, confirmed.  When the declared count exceeds the number of record
lines present, the decode still succeeds: every read past end of input
returns the empty line, which decodes to a one-field split (fewer than
four fields) and is skipped, so the document holds exactly the bonds of
the well-formed lines present and no parse error is reported. -/
theorem c9_overcount_succeeds (magic title rdate count : List Nat)
    (ls : List (List Nat)) (tline : String) (n : Int)
    (hm10 : (10 : Nat) ∉ magic) (ht10 : (10 : Nat) ∉ title)
    (hr10 : (10 : Nat) ∉ rdate) (hc10 : (10 : Nat) ∉ count)
    (hl10 : ∀ l ∈ ls, (10 : Nat) ∉ l)
    (hmagic : pyStripBytes (magic ++ [10]) ∈ v2Magics)
    (htitle : utf8Decode (title ++ [10]) = some tline)
    (hcount : (utf8Decode (count ++ [10])).bind (fun s => pyIntParse (pyStripStr s)) = some n)
    (hn : (ls.length : Int) < n)
    (hsteps : ∀ l ∈ ls, stepOf l ≠ .uerr ∧ stepOf l ≠ .parseFail) :
    read_sbw2 (mkV2 magic title rdate count (mkLines ls))
      = .ok (GB_OK, some { title := pyStripQuotes (pyStripStr tline), bonds := v2Bonds ls })
    ∧ v2LineStep [] = V2Step.skip
    ∧ pyReadline [] = ([], []) := by
  have hrw := read_sbw2_mkV2 magic title rdate count (mkLines ls) hm10 ht10 hr10 hc10
    hmagic tline htitle n hcount
  have hlt : ls.length < n.toNat := Int.lt_toNat.mpr hn
  have hsplit : n.toNat = ls.length + (n.toNat - ls.length) := by omega
  refine ⟨?_, rfl, rfl⟩
  rw [hrw, hsplit, v2Loop_mkLines ls (n.toNat - ls.length) [] hl10, runSteps_ok]
  · simp [Except.map, v2Bonds]
  · intro st hst
    rcases List.mem_map.mp hst with ⟨l2, hl2, rfl⟩
    exact hsteps l2 hl2

/-- C9, witness: count line `3`, but only one (well-formed) record line
present; the decode succeeds with that single bond. -/
theorem c9_overcount_succeeds_witness :
    read_sbw2 (mkV2 [34, 83, 66, 87, 32, 50, 34] [34, 84, 34] [120] [51]
        (mkLines [[65, 44, 53, 44, 69, 44, 88]]))
      = .ok (GB_OK, some { title := "T", bonds := v2Bonds [[65, 44, 53, 44, 69, 44, 88]] })
    ∧ v2LineStep [] = V2Step.skip
    ∧ pyReadline [] = ([], []) := by
  have h := c9_overcount_succeeds [34, 83, 66, 87, 32, 50, 34] [34, 84, 34] [120] [51]
    [[65, 44, 53, 44, 69, 44, 88]] "\"T\"\n" 3
    (by decide) (by decide) (by decide) (by decide) (by decide) (by decide)
    (by decide) (by decide) (by decide) (by decide)
  have ht : pyStripQuotes (pyStripStr "\"T\"\n") = "T" := by decide
  rw [ht] at h
  exact h

end SBW
